import Mathlib

/-!
# Verification of the zero2prod subscription / newsletter-publishing backend

Shallow embedding of the Rust sources:
* `src/domain/subscription_token.rs` — `SubscriptionToken::parse` / `generate`
* `src/routes/subscriptions.rs` — the `subscribe` handler and its DB helpers
* `src/routes/admin/newsletters/post.rs` — `publish_newsletter`,
  `insert_newsletter_issue`, `enqueue_delivery_tasks`
* the idempotency store (`try_processing`, `save_response`, `IdempotencyKey`)
  is not part of the provided sources; it is modelled from the spec where
  noted.

Rust strings are embedded as `List Char` (so Rust's `String::len`, a UTF-8
byte count, is the sum of `Char.utf8Size`); database tables are Lean lists of
row structures; machine-generated UUIDs are drawn from a monotone counter;
randomness (`thread_rng`) is externalised as a seed function argument.
-/

/-! ## Subscription tokens (`src/domain/subscription_token.rs`) -/

/-- The ASCII fragment of Rust `char::is_alphanumeric` (on ASCII the Rust
predicate agrees with `isAlpha || isDigit`).  The full predicate is
Unicode-aware and its table is external to this program, so
`SubscriptionToken.parseWith` keeps the classifier abstract; this fragment
instantiates it in the subscribe flow, where every token the flow stores is
produced by `generate` and is therefore ASCII. -/
def rustIsAlphanumeric (c : Char) : Bool :=
  c.isAlpha || c.isDigit

/-- Rust `String::len`: the UTF-8 byte length of the string. -/
def byteLen (s : List Char) : Nat :=
  (s.map Char.utf8Size).sum

structure SubscriptionToken where
  value : List Char
deriving DecidableEq, Repr

/-- `SubscriptionToken::parse`: accepts iff the byte length (`s.len()`) is 25
and every character satisfies `char::is_alphanumeric`.  The character
classifier is a parameter: the source calls the Unicode-aware standard
library predicate, whose table lives outside this repository, and every
statement below quantifies over the classifier so it holds in particular for
the real one.  Note the deliberate byte-vs-character asymmetry of the source:
the length check counts UTF-8 bytes while the classifier runs per
character. -/
def SubscriptionToken.parseWith (isAlnum : Char → Bool) (s : List Char) :
    Except (List Char) SubscriptionToken :=
  let is_25_characters := byteLen s == 25
  let contains_only_alphanumerics := s.all isAlnum
  if is_25_characters && contains_only_alphanumerics then
    Except.ok ⟨s⟩
  else
    Except.error s

/-- The subscribe flow's instance of `parse`: since every token that flow
stores comes from `generate` (ASCII only), the ASCII fragment of the
classifier is sufficient there. -/
def SubscriptionToken.parse (s : List Char) : Except (List Char) SubscriptionToken :=
  SubscriptionToken.parseWith rustIsAlphanumeric s

/-- The 62-character alphabet of `rand::distributions::Alphanumeric`. -/
def alphanumericAlphabet : List Char :=
  ("ABCDEFGHIJKLMNOPQRSTUVWXYZabcdefghijklmnopqrstuvwxyz0123456789").toList

/-- `SubscriptionToken::generate`: 25 samples from the `Alphanumeric`
distribution.  The RNG is externalised: `seed i` selects the alphabet index of
the i-th sampled character. -/
def SubscriptionToken.generate (seed : Nat → Nat) : SubscriptionToken :=
  ⟨(List.range 25).map (fun i => alphanumericAlphabet.getD (seed i % 62) 'A')⟩

lemma alphanumericAlphabet_length : alphanumericAlphabet.length = 62 := by
  decide

lemma alphanumericAlphabet_good :
    ∀ c ∈ alphanumericAlphabet, Char.utf8Size c = 1 ∧ rustIsAlphanumeric c = true := by
  decide

lemma generate_char_mem (seed : Nat → Nat) (c : Char)
    (hc : c ∈ (SubscriptionToken.generate seed).value) : c ∈ alphanumericAlphabet := by
  simp only [SubscriptionToken.generate, List.mem_map] at hc
  obtain ⟨i, -, rfl⟩ := hc
  have hlt : seed i % 62 < alphanumericAlphabet.length := by
    rw [alphanumericAlphabet_length]
    exact Nat.mod_lt _ (by decide)
  rw [List.getD_eq_getElem _ _ hlt]
  exact List.getElem_mem hlt

lemma byteLen_eq_length_of_ascii (s : List Char)
    (h : ∀ c ∈ s, Char.utf8Size c = 1) : byteLen s = s.length := by
  induction s with
  | nil => rfl
  | cons c cs ih =>
    have hc := h c (by simp)
    have hcs : ∀ x ∈ cs, Char.utf8Size x = 1 := fun x hx => h x (by simp [hx])
    have htail := ih hcs
    simp only [byteLen] at htail ⊢
    simp [hc, htail]
    omega

lemma generate_parses (isAlnum : Char → Bool)
    (hA : ∀ c ∈ alphanumericAlphabet, isAlnum c = true) (seed : Nat → Nat) :
    SubscriptionToken.parseWith isAlnum (SubscriptionToken.generate seed).value =
      Except.ok (SubscriptionToken.generate seed) := by
  have hmem : ∀ c ∈ (SubscriptionToken.generate seed).value,
      c ∈ alphanumericAlphabet :=
    fun c hc => generate_char_mem seed c hc
  have hlen : (SubscriptionToken.generate seed).value.length = 25 := by
    simp [SubscriptionToken.generate]
  have hbyte : byteLen (SubscriptionToken.generate seed).value = 25 := by
    rw [byteLen_eq_length_of_ascii _
      (fun c hc => (alphanumericAlphabet_good c (hmem c hc)).1), hlen]
  have hall : (SubscriptionToken.generate seed).value.all isAlnum = true :=
    List.all_eq_true.mpr (fun c hc => hA c (hmem c hc))
  simp [SubscriptionToken.parseWith, hbyte, hall]

lemma parse_generate (seed : Nat → Nat) :
    SubscriptionToken.parse (SubscriptionToken.generate seed).value =
      Except.ok (SubscriptionToken.generate seed) :=
  generate_parses rustIsAlphanumeric (by decide) seed

/-- **C10.** For any character classifier — in particular Rust's
Unicode-aware `char::is_alphanumeric`, of which only the ASCII fragment
(covering everything `generate` emits) is pinned by hypothesis — every token
produced by `SubscriptionToken::generate` is accepted by
`SubscriptionToken::parse` (round trip), and `parse` accepts a string exactly
when its UTF-8 byte length is 25 and every character is classified
alphanumeric. -/
theorem token_generate_parse_roundtrip :
    (∀ isAlnum : Char → Bool,
      (∀ c ∈ alphanumericAlphabet, isAlnum c = true) →
      ∀ seed : Nat → Nat,
        SubscriptionToken.parseWith isAlnum
            (SubscriptionToken.generate seed).value =
          Except.ok (SubscriptionToken.generate seed)) ∧
    (∀ (isAlnum : Char → Bool) (s : List Char),
      (∃ t, SubscriptionToken.parseWith isAlnum s = Except.ok t) ↔
        (byteLen s = 25 ∧ ∀ c ∈ s, isAlnum c = true)) := by
  constructor
  · exact generate_parses
  · intro isAlnum s
    constructor
    · rintro ⟨t, ht⟩
      simp only [SubscriptionToken.parseWith] at ht
      split at ht
      · rename_i hcond
        simpa [List.all_eq_true] using hcond
      · exact absurd ht (by simp)
    · rintro ⟨h1, h2⟩
      refine ⟨⟨s⟩, ?_⟩
      simp [SubscriptionToken.parseWith, h1, List.all_eq_true.mpr h2]

theorem token_generate_parse_roundtrip_witness :
    SubscriptionToken.parseWith rustIsAlphanumeric
        (SubscriptionToken.generate (fun _ => 0)).value =
      Except.ok (SubscriptionToken.generate (fun _ => 0)) :=
  token_generate_parse_roundtrip.1 rustIsAlphanumeric (by decide) (fun _ => 0)

/-! ## The subscribe handler (`src/routes/subscriptions.rs`) -/

structure Subscription where
  id : Nat
  email : String
  name : String
  status : String
deriving DecidableEq, Repr

structure TokenRow where
  subscription_token : List Char
  subscriber_id : Nat
deriving DecidableEq, Repr

/-- The database state the subscribe handler touches: the `subscriptions` and
`subscription_tokens` tables, plus a counter standing in for `Uuid::new_v4`
(freshness of the random UUID is what matters). -/
structure SubDb where
  subscriptions : List Subscription
  subscription_tokens : List TokenRow
  nextId : Nat
deriving DecidableEq, Repr

/-- `get_past_subscription`: SELECT id FROM subscriptions WHERE email = $1. -/
def get_past_subscription (subs : List Subscription) (email : String) : Option Nat :=
  (subs.find? (fun r => r.email == email)).map (fun r => r.id)

/-- `get_past_subscription_token`: SELECT subscription_token FROM
subscription_tokens WHERE subscriber_id = $1, with the row mapped through
`SubscriptionToken::parse(..).unwrap()` as in the Rust code (the `Except` in
the result records the argument the `unwrap` is applied to). -/
def get_past_subscription_token (tokens : List TokenRow) (sid : Nat) :
    Option (Except (List Char) SubscriptionToken) :=
  (tokens.find? (fun r => r.subscriber_id == sid)).map
    (fun r => SubscriptionToken.parse r.subscription_token)

/-- `insert_subscriber`: INSERT ... ON CONFLICT DO NOTHING.  The UNIQUE
constraint on `subscriptions.email` lives in the schema, which is not among
the provided sources; the conflict condition is modelled from the spec's
deduplication-by-email reading.  The function returns the freshly generated
id even when the conflicting insert inserted nothing, exactly as the Rust
code does. -/
def insert_subscriber (db : SubDb) (email name : String) : SubDb × Nat :=
  let subscriber_id := db.nextId
  if db.subscriptions.any (fun r => r.email == email) then
    ({ db with nextId := db.nextId + 1 }, subscriber_id)
  else
    ({ db with
        subscriptions := db.subscriptions ++
          [⟨subscriber_id, email, name, "pending_confirmation"⟩],
        nextId := db.nextId + 1 }, subscriber_id)

/-- `store_token`: INSERT INTO subscription_tokens. -/
def store_token (db : SubDb) (sid : Nat) (token : SubscriptionToken) : SubDb :=
  { db with subscription_tokens := db.subscription_tokens ++ [⟨token.value, sid⟩] }

inductive SubscribeError where
  | tokenParsePanic
deriving DecidableEq, Repr

/-- Result of a subscribe request: the committed database, the HTTP status,
and the token placed in the confirmation email. -/
structure SubscribeOutcome where
  db : SubDb
  status : Nat
  confirmationToken : SubscriptionToken
deriving DecidableEq, Repr

/-- Second half of `subscribe` (lines 63–90): look up an existing token for
the subscriber, generating and storing a fresh one only when none exists,
then commit and send the confirmation email. -/
def subscribe_token_phase (db : SubDb) (subscriber_id : Nat) (seed : Nat → Nat) :
    Except SubscribeError SubscribeOutcome :=
  match get_past_subscription_token db.subscription_tokens subscriber_id with
  | some (Except.ok token) => Except.ok ⟨db, 200, token⟩
  | some (Except.error _) => Except.error SubscribeError.tokenParsePanic
  | none =>
      let subscription_token := SubscriptionToken.generate seed
      Except.ok ⟨store_token db subscriber_id subscription_token, 200, subscription_token⟩

/-- The `subscribe` handler (validation of name/email already done; DB round
trips and the outbound email modelled as succeeding, which is what the claims
below are about).  Returns HTTP 200 on success. -/
def subscribe (db : SubDb) (email name : String) (seed : Nat → Nat) :
    Except SubscribeError SubscribeOutcome :=
  match get_past_subscription db.subscriptions email with
  | some id => subscribe_token_phase db id seed
  | none =>
      let p := insert_subscriber db email name
      subscribe_token_phase p.1 p.2 seed

lemma get_past_subscription_append_self (subs : List Subscription)
    (email nm st : String) (sid : Nat)
    (h : subs.find? (fun r => r.email == email) = none) :
    get_past_subscription (subs ++ [⟨sid, email, nm, st⟩]) email = some sid := by
  simp [get_past_subscription, List.find?_append, h]

lemma get_past_subscription_token_append_self (tokens : List TokenRow)
    (sid : Nat) (t : List Char)
    (h : tokens.find? (fun r => r.subscriber_id == sid) = none) :
    get_past_subscription_token (tokens ++ [⟨t, sid⟩]) sid =
      some (SubscriptionToken.parse t) := by
  simp [get_past_subscription_token, List.find?_append, h]

lemma get_past_subscription_token_none_find (tokens : List TokenRow) (sid : Nat)
    (h : get_past_subscription_token tokens sid = none) :
    tokens.find? (fun r => r.subscriber_id == sid) = none := by
  simp only [get_past_subscription_token, Option.map_eq_none'] at h
  exact h

/-- **C9.** The subscribe handler is idempotent per email address: once a
subscribe request for an email has succeeded, a repeated request for the same
email reuses the existing subscriber row and the existing subscription token
(the database is left unchanged, so at most one subscriber row and one token
exist for the email), and still returns HTTP 200. -/
theorem subscribe_idempotent_per_email (db : SubDb) (email nm : String)
    (s1 s2 : Nat → Nat) (o1 : SubscribeOutcome)
    (h1 : subscribe db email nm s1 = Except.ok o1) :
    subscribe o1.db email nm s2 =
      Except.ok ⟨o1.db, 200, o1.confirmationToken⟩ ∧ o1.status = 200 := by
  rcases hsub : get_past_subscription db.subscriptions email with _ | id
  · -- email not yet present: the first request inserts the row and a token
    have hfind : db.subscriptions.find? (fun r => r.email == email) = none := by
      simp only [get_past_subscription, Option.map_eq_none'] at hsub
      exact hsub
    have hany : db.subscriptions.any (fun r => r.email == email) = false := by
      rw [List.any_eq_false]
      intro r hr
      have := List.find?_eq_none.mp hfind r hr
      simpa using this
    simp only [subscribe, hsub, insert_subscriber, hany, if_false, Bool.false_eq_true] at h1
    rcases htok : get_past_subscription_token db.subscription_tokens db.nextId with _ | tokres
    · -- no token attached to the fresh id: one is generated and stored
      simp only [subscribe_token_phase, htok] at h1
      obtain rfl : (⟨store_token
            ⟨db.subscriptions ++ [⟨db.nextId, email, nm, "pending_confirmation"⟩],
              db.subscription_tokens, db.nextId + 1⟩ db.nextId
            (SubscriptionToken.generate s1), 200, SubscriptionToken.generate s1⟩ :
          SubscribeOutcome) = o1 := by
        exact Except.ok.inj h1
      refine ⟨?_, rfl⟩
      simp only [subscribe, store_token]
      rw [get_past_subscription_append_self _ _ _ _ _ hfind]
      simp only [subscribe_token_phase]
      rw [get_past_subscription_token_append_self _ _ _
        (get_past_subscription_token_none_find _ _ htok)]
      simp [parse_generate]
    · rcases tokres with t | e
      · -- the stored token fails to parse: the Rust unwrap panics
        simp only [subscribe_token_phase, htok] at h1
        exact absurd h1 (by simp)
      · simp only [subscribe_token_phase, htok] at h1
        obtain rfl : (⟨⟨db.subscriptions ++ [⟨db.nextId, email, nm, "pending_confirmation"⟩],
              db.subscription_tokens, db.nextId + 1⟩, 200, e⟩ : SubscribeOutcome) = o1 :=
          Except.ok.inj h1
        refine ⟨?_, rfl⟩
        simp only [subscribe]
        rw [get_past_subscription_append_self _ _ _ _ _ hfind]
        simp [subscribe_token_phase, htok]
  · -- email already present: the existing subscriber id is reused
    simp only [subscribe, hsub] at h1
    rcases htok : get_past_subscription_token db.subscription_tokens id with _ | tokres
    · simp only [subscribe_token_phase, htok] at h1
      obtain rfl : (⟨store_token db id (SubscriptionToken.generate s1), 200,
            SubscriptionToken.generate s1⟩ : SubscribeOutcome) = o1 :=
        Except.ok.inj h1
      refine ⟨?_, rfl⟩
      simp only [subscribe, store_token, hsub]
      simp only [subscribe_token_phase]
      rw [get_past_subscription_token_append_self _ _ _
        (get_past_subscription_token_none_find _ _ htok)]
      simp [parse_generate]
    · rcases tokres with t | e
      · simp only [subscribe_token_phase, htok] at h1
        exact absurd h1 (by simp)
      · simp only [subscribe_token_phase, htok] at h1
        obtain rfl : (⟨db, 200, e⟩ : SubscribeOutcome) = o1 := Except.ok.inj h1
        refine ⟨?_, rfl⟩
        simp [subscribe, hsub, subscribe_token_phase, htok]

/-! ## Newsletter publishing (`src/routes/admin/newsletters/post.rs`)

The handler's collaborators `try_processing`, `save_response`,
`IdempotencyKey` (the `idempotency` module) and the helpers `see_other`,
`e400`, `e500` (the `utils` module) are not among the provided sources; they
are modelled from the spec, as marked on each definition.  The handler itself
and its two SQL helpers are translated from `post.rs`. -/

abbrev UserId := Nat

structure HttpResp where
  status : Nat
  headers : List (String × String)
  body : List Nat
deriving DecidableEq, Repr

/-- Modelled from the spec: `see_other` from the missing `utils` module — the
success acknowledgment is an HTTP 303 See Other redirect carrying a Location
header and an empty body. -/
def see_other (location : String) : HttpResp :=
  ⟨303, [("Location", location)], []⟩

structure PubError where
  status : Nat
deriving DecidableEq, Repr

/-- Modelled from the spec: `e400` from the missing `utils` module — wraps an
error as an HTTP 400 client error. -/
def e400 : PubError := ⟨400⟩

/-- Modelled from the spec: `e500` from the missing `utils` module — wraps an
error as an HTTP 500 server error. -/
def e500 : PubError := ⟨500⟩

/-- Modelled from the spec: `IdempotencyKey` validation from the missing
`idempotency` module.  Spec invariants: non-empty, length at most 50
characters, rejected at the boundary otherwise. -/
def IdempotencyKey.tryFrom (s : String) : Except String String :=
  if s.length = 0 then
    Except.error "The idempotency key cannot be empty"
  else if 50 < s.length then
    Except.error "The idempotency key must be at most 50 characters long"
  else
    Except.ok s

structure IdempotencyRow where
  user_id : UserId
  idempotency_key : String
  response : HttpResp
deriving DecidableEq, Repr

structure NewsletterIssue where
  newsletter_issue_id : Nat
  title : String
  text_content : String
  html_content : String
deriving DecidableEq, Repr

structure DeliveryTask where
  newsletter_issue_id : Nat
  subscriber_email : String
deriving DecidableEq, Repr

inductive SqlxError where
  | uniqueViolation
deriving DecidableEq, Repr

/-- The database tables touched by the publish path.  Rows of the
`idempotency` table that are *completed* (response saved) live in
`idempotency`; *started-but-uncompleted* reservations are the uncommitted
insert of the winner's open transaction and live in
`PgState.reservations`. -/
structure Db where
  idempotency : List IdempotencyRow
  newsletter_issues : List NewsletterIssue
  issue_delivery_queue : List DeliveryTask
  subscriptions : List Subscription
deriving DecidableEq, Repr

/-- The shared Postgres state: committed data, the uncommitted idempotency
reservations (the row locks concurrent requests block on), and a counter
standing in for `Uuid::new_v4`. -/
structure PgState where
  committed : Db
  reservations : List (UserId × String)
  nextId : Nat
deriving DecidableEq, Repr

/-- SELECT on the idempotency table by its composite key. -/
def lookupIdem (rows : List IdempotencyRow) (uid : UserId) (key : String) :
    Option IdempotencyRow :=
  rows.find? (fun r => r.user_id == uid && r.idempotency_key == key)

inductive NextAction where
  | startProcessing
  | returnSavedResponse (saved : HttpResp)
  | waitForWinner
deriving DecidableEq, Repr

/-- Modelled from the spec: `try_processing` / `begin_or_replay` of the
missing `idempotency` module.  Atomically: a completed record replays its
saved response; a started-but-not-completed reservation makes the caller
block/retry (never "no record exists"); otherwise the caller becomes the
single winner — its reservation is inserted and it starts processing inside
the open transaction. -/
def try_processing (st : PgState) (uid : UserId) (key : String) :
    PgState × NextAction :=
  match lookupIdem st.committed.idempotency uid key with
  | some row => (st, NextAction.returnSavedResponse row.response)
  | none =>
      if st.reservations.contains (uid, key) then
        (st, NextAction.waitForWinner)
      else
        ({ st with reservations := st.reservations ++ [(uid, key)] },
          NextAction.startProcessing)

/-- `insert_newsletter_issue`: INSERT INTO newsletter_issues, with the fresh
`Uuid::new_v4` passed in. -/
def insert_newsletter_issue (issues : List NewsletterIssue)
    (newsletter_issue_id : Nat) (title text_content html_content : String) :
    List NewsletterIssue :=
  issues ++ [⟨newsletter_issue_id, title, text_content, html_content⟩]

/-- The rows produced by `SELECT $1, email FROM subscriptions WHERE status =
'confirmed'`: one delivery task per currently-confirmed subscriber. -/
def confirmedTasks (subs : List Subscription) (newsletter_issue_id : Nat) :
    List DeliveryTask :=
  (subs.filter (fun s => s.status == "confirmed")).map
    (fun s => ⟨newsletter_issue_id, s.email⟩)

/-- Violation check of the composite PRIMARY KEY (newsletter_issue_id,
subscriber_email) on `issue_delivery_queue`: some inserted row conflicts with
an existing one, or two inserted rows conflict with each other. -/
def pkConflict (queue newRows : List DeliveryTask) : Bool :=
  decide (∃ t ∈ newRows, t ∈ queue) || decide (¬ newRows.Nodup)

/-- `enqueue_delivery_tasks`: the single set-based
INSERT INTO issue_delivery_queue (…) SELECT $1, email FROM subscriptions
WHERE status = 'confirmed'.  The statement carries no ON CONFLICT clause; the
composite primary key on the table is part of the schema, which is not among
the provided sources and is modelled from the spec ("keyed by (issue_id,
email)").  Under Postgres a conflicting insert therefore raises a
unique-constraint error. -/
def enqueue_delivery_tasks (queue : List DeliveryTask)
    (subs : List Subscription) (newsletter_issue_id : Nat) :
    Except SqlxError (List DeliveryTask) :=
  let newRows := confirmedTasks subs newsletter_issue_id
  if pkConflict queue newRows then
    Except.error SqlxError.uniqueViolation
  else
    Except.ok (queue ++ newRows)

structure FormData where
  title : String
  html : String
  text : String
  idempotency_key : String
deriving DecidableEq, Repr

/-- Database operations a request performs, in order (used to state
"no database access" and "no further inserts on replay"). -/
inductive DbOp where
  | tryProcessingOp
  | insertIssueOp
  | enqueueTasksOp
  | saveResponseOp
  | commitOp
  | rollbackOp
deriving DecidableEq, Repr

/-- Which database step fails (the call returns an error, or the process
crashes there before commit); `noFail` is the happy path. -/
inductive FailAt where
  | tryProcessing
  | insertIssue
  | enqueue
  | saveResponse
  | commit
  | noFail
deriving DecidableEq, Repr

deriving instance DecidableEq for Except

structure PublishResult where
  state : PgState
  response : Except PubError HttpResp
  ops : List DbOp
deriving DecidableEq, Repr

/-- The `publish_newsletter` handler.  All writes of the winning path (issue
insert, task staging, saved response) are buffered in the open transaction
and reach `committed` only in the final commit step; any failure or crash
before that point rolls back, leaving the pre-call state.  `save_response`
(modelled from the spec) writes the serialized response into the reserved
idempotency row inside the same transaction. -/
def publish_newsletter (st : PgState) (uid : UserId) (form : FormData)
    (fail : FailAt) : PublishResult :=
  match IdempotencyKey.tryFrom form.idempotency_key with
  | Except.error _ => ⟨st, Except.error e400, []⟩
  | Except.ok key =>
    if fail = FailAt.tryProcessing then
      ⟨st, Except.error e500, [DbOp.tryProcessingOp, DbOp.rollbackOp]⟩
    else
      match (try_processing st uid key).2 with
      | NextAction.returnSavedResponse saved =>
          ⟨st, Except.ok saved, [DbOp.tryProcessingOp]⟩
      | NextAction.waitForWinner =>
          ⟨st, Except.error e500, [DbOp.tryProcessingOp]⟩
      | NextAction.startProcessing =>
          let newsletter_issue_id := st.nextId
          if fail = FailAt.insertIssue then
            ⟨st, Except.error e500,
              [DbOp.tryProcessingOp, DbOp.insertIssueOp, DbOp.rollbackOp]⟩
          else
            let issues := insert_newsletter_issue
              st.committed.newsletter_issues newsletter_issue_id
              form.title form.text form.html
            if fail = FailAt.enqueue then
              ⟨st, Except.error e500,
                [DbOp.tryProcessingOp, DbOp.insertIssueOp,
                  DbOp.enqueueTasksOp, DbOp.rollbackOp]⟩
            else
              match enqueue_delivery_tasks st.committed.issue_delivery_queue
                  st.committed.subscriptions newsletter_issue_id with
              | Except.error _ =>
                  ⟨st, Except.error e500,
                    [DbOp.tryProcessingOp, DbOp.insertIssueOp,
                      DbOp.enqueueTasksOp, DbOp.rollbackOp]⟩
              | Except.ok queue =>
                  let response := see_other "/admin/newsletters"
                  if fail = FailAt.saveResponse then
                    ⟨st, Except.error e500,
                      [DbOp.tryProcessingOp, DbOp.insertIssueOp,
                        DbOp.enqueueTasksOp, DbOp.saveResponseOp,
                        DbOp.rollbackOp]⟩
                  else if fail = FailAt.commit then
                    ⟨st, Except.error e500,
                      [DbOp.tryProcessingOp, DbOp.insertIssueOp,
                        DbOp.enqueueTasksOp, DbOp.saveResponseOp,
                        DbOp.commitOp, DbOp.rollbackOp]⟩
                  else
                    ⟨⟨⟨st.committed.idempotency ++ [⟨uid, key, response⟩],
                        issues, queue, st.committed.subscriptions⟩,
                      st.reservations, st.nextId + 1⟩,
                      Except.ok response,
                      [DbOp.tryProcessingOp, DbOp.insertIssueOp,
                        DbOp.enqueueTasksOp, DbOp.saveResponseOp,
                        DbOp.commitOp]⟩

lemma lookupIdem_append_self (rows : List IdempotencyRow) (uid : UserId)
    (key : String) (resp : HttpResp)
    (h : lookupIdem rows uid key = none) :
    lookupIdem (rows ++ [⟨uid, key, resp⟩]) uid key = some ⟨uid, key, resp⟩ := by
  have h' : rows.find? (fun r => r.user_id == uid && r.idempotency_key == key) = none := h
  simp [lookupIdem, List.find?_append, h']

lemma confirmedTasks_nodup (subs : List Subscription) (nid : Nat)
    (hnodup : ((subs.filter (fun s => s.status == "confirmed")).map
      (fun s => s.email)).Nodup) :
    (confirmedTasks subs nid).Nodup := by
  have heq : confirmedTasks subs nid =
      ((subs.filter (fun s => s.status == "confirmed")).map (fun s => s.email)).map
        (fun e => (⟨nid, e⟩ : DeliveryTask)) := by
    simp [confirmedTasks, List.map_map]
  rw [heq]
  refine hnodup.map ?_
  intro a b hab
  simpa using congrArg DeliveryTask.subscriber_email hab

lemma enqueue_ok (queue : List DeliveryTask) (subs : List Subscription) (nid : Nat)
    (hfresh : ∀ t ∈ queue, t.newsletter_issue_id ≠ nid)
    (hnodup : ((subs.filter (fun s => s.status == "confirmed")).map
      (fun s => s.email)).Nodup) :
    enqueue_delivery_tasks queue subs nid =
      Except.ok (queue ++ confirmedTasks subs nid) := by
  have hdisj : ∀ t ∈ confirmedTasks subs nid, t ∉ queue := by
    intro t ht hq
    simp only [confirmedTasks, List.mem_map] at ht
    obtain ⟨s, -, rfl⟩ := ht
    exact hfresh _ hq rfl
  have hnd := confirmedTasks_nodup subs nid hnodup
  have hc : pkConflict queue (confirmedTasks subs nid) = false := by
    simp only [pkConflict, Bool.or_eq_false_iff, decide_eq_false_iff_not]
    constructor
    · push_neg
      exact hdisj
    · simp [hnd]
  simp [enqueue_delivery_tasks, hc]

/-- The post-commit state of a first-time successful publish: the issue row,
the delivery tasks, and the saved idempotency response all appear together,
and the reservation row lock is released. -/
def publishSuccessState (st : PgState) (uid : UserId) (form : FormData)
    (key : String) : PgState :=
  ⟨⟨st.committed.idempotency ++ [⟨uid, key, see_other "/admin/newsletters"⟩],
      st.committed.newsletter_issues ++
        [⟨st.nextId, form.title, form.text, form.html⟩],
      st.committed.issue_delivery_queue ++
        confirmedTasks st.committed.subscriptions st.nextId,
      st.committed.subscriptions⟩,
    st.reservations, st.nextId + 1⟩

lemma publish_first_run (st : PgState) (uid : UserId) (form : FormData)
    (key : String)
    (h1 : IdempotencyKey.tryFrom form.idempotency_key = Except.ok key)
    (h2 : lookupIdem st.committed.idempotency uid key = none)
    (h3 : st.reservations.contains (uid, key) = false)
    (h4 : ∀ t ∈ st.committed.issue_delivery_queue,
      t.newsletter_issue_id ≠ st.nextId)
    (h5 : ((st.committed.subscriptions.filter
      (fun s => s.status == "confirmed")).map (fun s => s.email)).Nodup) :
    publish_newsletter st uid form FailAt.noFail =
      ⟨publishSuccessState st uid form key,
        Except.ok (see_other "/admin/newsletters"),
        [DbOp.tryProcessingOp, DbOp.insertIssueOp, DbOp.enqueueTasksOp,
          DbOp.saveResponseOp, DbOp.commitOp]⟩ := by
  have henq := enqueue_ok st.committed.issue_delivery_queue
    st.committed.subscriptions st.nextId h4 h5
  simp only [publish_newsletter, h1, try_processing, h2, h3,
    insert_newsletter_issue, henq, publishSuccessState]
  rfl

lemma publish_fail_state_unchanged (st : PgState) (uid : UserId)
    (form : FormData) (fail : FailAt) (h : fail ≠ FailAt.noFail) :
    (publish_newsletter st uid form fail).state = st := by
  simp only [publish_newsletter]
  split
  · rfl
  · split
    · rfl
    · split
      · rfl
      · rfl
      · split
        · rfl
        · split
          · rfl
          · split
            · rfl
            · split
              · rfl
              · split
                · rfl
                · rename_i hk h1 hact h2 h3 q hq h4 h5
                  cases fail <;> simp_all

/-- **C1.** All publish-side writes (newsletter issue, delivery-queue rows,
saved idempotency response) happen in one transaction and become visible
together only at commit: a failure or crash at any step before commit leaves
the committed state exactly as it was (nothing partially visible, a retry
starts from scratch), while on the happy path the commit makes all three
visible at once. -/
theorem publish_transaction_atomic (st : PgState) (uid : UserId)
    (form : FormData) (fail : FailAt) (key : String)
    (h1 : IdempotencyKey.tryFrom form.idempotency_key = Except.ok key)
    (h2 : lookupIdem st.committed.idempotency uid key = none)
    (h3 : st.reservations.contains (uid, key) = false)
    (h4 : ∀ t ∈ st.committed.issue_delivery_queue,
      t.newsletter_issue_id ≠ st.nextId)
    (h5 : ((st.committed.subscriptions.filter
      (fun s => s.status == "confirmed")).map (fun s => s.email)).Nodup) :
    (fail ≠ FailAt.noFail → (publish_newsletter st uid form fail).state = st) ∧
    (publish_newsletter st uid form FailAt.noFail).state.committed =
      ⟨st.committed.idempotency ++ [⟨uid, key, see_other "/admin/newsletters"⟩],
        st.committed.newsletter_issues ++
          [⟨st.nextId, form.title, form.text, form.html⟩],
        st.committed.issue_delivery_queue ++
          confirmedTasks st.committed.subscriptions st.nextId,
        st.committed.subscriptions⟩ := by
  constructor
  · exact publish_fail_state_unchanged st uid form fail
  · rw [publish_first_run st uid form key h1 h2 h3 h4 h5]
    rfl

lemma publish_replay (st : PgState) (uid : UserId) (form : FormData)
    (key : String) (row : IdempotencyRow)
    (h1 : IdempotencyKey.tryFrom form.idempotency_key = Except.ok key)
    (hrow : lookupIdem st.committed.idempotency uid key = some row) :
    publish_newsletter st uid form FailAt.noFail =
      ⟨st, Except.ok row.response, [DbOp.tryProcessingOp]⟩ := by
  simp only [publish_newsletter, h1, try_processing, hrow]
  rfl

/-- **C2.** `publish_newsletter` is idempotent per (user_id, idempotency_key):
the first invocation creates exactly one newsletter issue and stages the one
set of delivery tasks; a second invocation with the same key hits the
`ReturnSavedResponse` branch — it performs only the idempotency lookup (no
inserts, no state mutation) and returns the previously saved response
byte-identically. -/
theorem publish_idempotent_replay (st : PgState) (uid : UserId)
    (form : FormData) (key : String)
    (h1 : IdempotencyKey.tryFrom form.idempotency_key = Except.ok key)
    (h2 : lookupIdem st.committed.idempotency uid key = none)
    (h3 : st.reservations.contains (uid, key) = false)
    (h4 : ∀ t ∈ st.committed.issue_delivery_queue,
      t.newsletter_issue_id ≠ st.nextId)
    (h5 : ((st.committed.subscriptions.filter
      (fun s => s.status == "confirmed")).map (fun s => s.email)).Nodup) :
    publish_newsletter (publish_newsletter st uid form FailAt.noFail).state
        uid form FailAt.noFail =
      ⟨(publish_newsletter st uid form FailAt.noFail).state,
        (publish_newsletter st uid form FailAt.noFail).response,
        [DbOp.tryProcessingOp]⟩ ∧
    (publish_newsletter st uid form
        FailAt.noFail).state.committed.newsletter_issues.length =
      st.committed.newsletter_issues.length + 1 ∧
    (publish_newsletter st uid form
        FailAt.noFail).state.committed.issue_delivery_queue =
      st.committed.issue_delivery_queue ++
        confirmedTasks st.committed.subscriptions st.nextId := by
  have hfr := publish_first_run st uid form key h1 h2 h3 h4 h5
  have hrow : lookupIdem
      (publish_newsletter st uid form FailAt.noFail).state.committed.idempotency
      uid key = some ⟨uid, key, see_other "/admin/newsletters"⟩ := by
    rw [hfr]
    exact lookupIdem_append_self _ _ _ _ h2
  refine ⟨?_, ?_, ?_⟩
  · rw [publish_replay _ uid form key _ h1 hrow]
    rw [hfr]
  · rw [hfr]
    simp [publishSuccessState]
  · rw [hfr]
    simp [publishSuccessState]

/-- **C5.** On the `StartProcessing` path the coordinator stages exactly one
delivery task per subscriber whose status is `'confirmed'` at staging time
(a pair (issue_id, email) is staged iff a confirmed subscriber has that
email), via one set-based insert statement (a single `enqueueTasksOp`) inside
the same transaction as the newsletter-issue insert (one shared commit). -/
theorem publish_stages_confirmed_tasks (st : PgState) (uid : UserId)
    (form : FormData) (key : String)
    (h1 : IdempotencyKey.tryFrom form.idempotency_key = Except.ok key)
    (h2 : lookupIdem st.committed.idempotency uid key = none)
    (h3 : st.reservations.contains (uid, key) = false)
    (h4 : ∀ t ∈ st.committed.issue_delivery_queue,
      t.newsletter_issue_id ≠ st.nextId)
    (h5 : ((st.committed.subscriptions.filter
      (fun s => s.status == "confirmed")).map (fun s => s.email)).Nodup) :
    (publish_newsletter st uid form
        FailAt.noFail).state.committed.issue_delivery_queue =
      st.committed.issue_delivery_queue ++
        confirmedTasks st.committed.subscriptions st.nextId ∧
    (∀ e, (⟨st.nextId, e⟩ : DeliveryTask) ∈
        confirmedTasks st.committed.subscriptions st.nextId ↔
      ∃ s ∈ st.committed.subscriptions,
        s.status = "confirmed" ∧ s.email = e) ∧
    (publish_newsletter st uid form
        FailAt.noFail).state.committed.newsletter_issues =
      st.committed.newsletter_issues ++
        [⟨st.nextId, form.title, form.text, form.html⟩] ∧
    (publish_newsletter st uid form FailAt.noFail).ops =
      [DbOp.tryProcessingOp, DbOp.insertIssueOp, DbOp.enqueueTasksOp,
        DbOp.saveResponseOp, DbOp.commitOp] := by
  have hfr := publish_first_run st uid form key h1 h2 h3 h4 h5
  refine ⟨by rw [hfr]; simp [publishSuccessState], ?_,
    by rw [hfr]; simp [publishSuccessState], by rw [hfr]⟩
  intro e
  constructor
  · intro hm
    simp only [confirmedTasks, List.mem_map, List.mem_filter] at hm
    obtain ⟨s, ⟨hs, hst⟩, heq⟩ := hm
    refine ⟨s, hs, by simpa using hst, ?_⟩
    simpa using congrArg DeliveryTask.subscriber_email heq
  · rintro ⟨s, hs, hst, rfl⟩
    simp only [confirmedTasks, List.mem_map, List.mem_filter]
    exact ⟨s, ⟨hs, by simp [hst]⟩, rfl⟩

/-- **C7.** A first-time successful publish returns an HTTP 303 See Other
redirect to `/admin/newsletters`; the saved idempotency row stores exactly
that serialized response, and a replay of the completed key returns a
response byte-identical (status, headers, body) to the first one. -/
theorem publish_see_other_and_identical_replay (st : PgState) (uid : UserId)
    (form : FormData) (key : String)
    (h1 : IdempotencyKey.tryFrom form.idempotency_key = Except.ok key)
    (h2 : lookupIdem st.committed.idempotency uid key = none)
    (h3 : st.reservations.contains (uid, key) = false)
    (h4 : ∀ t ∈ st.committed.issue_delivery_queue,
      t.newsletter_issue_id ≠ st.nextId)
    (h5 : ((st.committed.subscriptions.filter
      (fun s => s.status == "confirmed")).map (fun s => s.email)).Nodup) :
    (publish_newsletter st uid form FailAt.noFail).response =
      Except.ok (see_other "/admin/newsletters") ∧
    see_other "/admin/newsletters" =
      ⟨303, [("Location", "/admin/newsletters")], []⟩ ∧
    lookupIdem (publish_newsletter st uid form
        FailAt.noFail).state.committed.idempotency uid key =
      some ⟨uid, key, see_other "/admin/newsletters"⟩ ∧
    (publish_newsletter (publish_newsletter st uid form FailAt.noFail).state
        uid form FailAt.noFail).response =
      (publish_newsletter st uid form FailAt.noFail).response := by
  have hfr := publish_first_run st uid form key h1 h2 h3 h4 h5
  have hrow : lookupIdem
      (publish_newsletter st uid form FailAt.noFail).state.committed.idempotency
      uid key = some ⟨uid, key, see_other "/admin/newsletters"⟩ := by
    rw [hfr]
    exact lookupIdem_append_self _ _ _ _ h2
  refine ⟨by rw [hfr], rfl, hrow, ?_⟩
  rw [publish_replay _ uid form key _ h1 hrow]
  rw [hfr]

/-- **C8.** With zero confirmed subscribers the publish still commits: the
newsletter issue is created, zero delivery tasks are staged (the queue is
unchanged), and the success response is returned — a valid terminal state,
not an error. -/
theorem publish_zero_confirmed_commits (st : PgState) (uid : UserId)
    (form : FormData) (key : String)
    (h1 : IdempotencyKey.tryFrom form.idempotency_key = Except.ok key)
    (h2 : lookupIdem st.committed.idempotency uid key = none)
    (h3 : st.reservations.contains (uid, key) = false)
    (h6 : st.committed.subscriptions.filter
      (fun s => s.status == "confirmed") = []) :
    (publish_newsletter st uid form FailAt.noFail).response =
      Except.ok (see_other "/admin/newsletters") ∧
    (publish_newsletter st uid form
        FailAt.noFail).state.committed.issue_delivery_queue =
      st.committed.issue_delivery_queue ∧
    (publish_newsletter st uid form
        FailAt.noFail).state.committed.newsletter_issues =
      st.committed.newsletter_issues ++
        [⟨st.nextId, form.title, form.text, form.html⟩] := by
  have hct : confirmedTasks st.committed.subscriptions st.nextId = [] := by
    simp [confirmedTasks, h6]
  have h4 : ∀ t ∈ st.committed.issue_delivery_queue,
      t.newsletter_issue_id ≠ st.nextId → True := fun _ _ _ => trivial
  have henq : enqueue_delivery_tasks st.committed.issue_delivery_queue
      st.committed.subscriptions st.nextId =
      Except.ok (st.committed.issue_delivery_queue ++
        confirmedTasks st.committed.subscriptions st.nextId) := by
    simp [enqueue_delivery_tasks, pkConflict, hct]
  have hfr : publish_newsletter st uid form FailAt.noFail =
      ⟨publishSuccessState st uid form key,
        Except.ok (see_other "/admin/newsletters"),
        [DbOp.tryProcessingOp, DbOp.insertIssueOp, DbOp.enqueueTasksOp,
          DbOp.saveResponseOp, DbOp.commitOp]⟩ := by
    simp only [publish_newsletter, h1, try_processing, h2, h3,
      insert_newsletter_issue, henq, publishSuccessState]
    rfl
  refine ⟨by rw [hfr], ?_, by rw [hfr]; simp [publishSuccessState]⟩
  rw [hfr]
  simp [publishSuccessState, hct]

/-- **C6.** A syntactically invalid idempotency key (empty, or longer than 50
characters) makes `publish_newsletter` fail fast with an HTTP 400 client
error before any transaction is opened or any database access happens: the
state is unchanged and the trace of database operations is empty, so no
issue, task, or idempotency row is created. -/
theorem publish_invalid_key_fails_fast (st : PgState) (uid : UserId)
    (form : FormData) (fail : FailAt)
    (h : form.idempotency_key.length = 0 ∨ 50 < form.idempotency_key.length) :
    publish_newsletter st uid form fail = ⟨st, Except.error e400, []⟩ ∧
    e400.status = 400 := by
  have herr : ∃ m, IdempotencyKey.tryFrom form.idempotency_key =
      Except.error m := by
    rcases h with h | h
    · exact ⟨"The idempotency key cannot be empty",
        by simp [IdempotencyKey.tryFrom, h]⟩
    · have h0 : ¬ form.idempotency_key.length = 0 := by omega
      exact ⟨"The idempotency key must be at most 50 characters long",
        by simp [IdempotencyKey.tryFrom, h0, h]⟩
  obtain ⟨m, hm⟩ := herr
  refine ⟨?_, rfl⟩
  simp [publish_newsletter, hm]

/-- **C3 (counterexample).** A conflicting insert of an already-present
(issue_id, email) pair is not a no-op: the staging statement carries no ON
CONFLICT clause, so the insert fails with a unique-constraint error instead
of succeeding and leaving the queue unchanged. -/
theorem enqueue_conflicting_insert_errors :
    enqueue_delivery_tasks [⟨7, "a@x.com"⟩]
        [⟨1, "a@x.com", "Al", "confirmed"⟩] 7 =
      Except.error SqlxError.uniqueViolation ∧
    enqueue_delivery_tasks [⟨7, "a@x.com"⟩]
        [⟨1, "a@x.com", "Al", "confirmed"⟩] 7 ≠
      Except.ok [⟨7, "a@x.com"⟩] := by
  constructor
  · decide
  · decide

/-- **C3 (amended).** The (issue_id, email) pair is the primary key of
`issue_delivery_queue`, so no pair can ever appear twice: a staging insert
that succeeds preserves pairwise-distinct rows, and a conflicting insert of
an existing pair aborts with a unique-constraint error (rather than creating
a duplicate row — but it is an error, not a silent no-op). -/
theorem enqueue_no_duplicate_pairs (queue : List DeliveryTask)
    (subs : List Subscription) (nid : Nat) (hq : queue.Nodup) :
    (∀ q', enqueue_delivery_tasks queue subs nid = Except.ok q' → q'.Nodup) ∧
    (pkConflict queue (confirmedTasks subs nid) = true →
      enqueue_delivery_tasks queue subs nid =
        Except.error SqlxError.uniqueViolation) := by
  constructor
  · intro q' h
    simp only [enqueue_delivery_tasks] at h
    split at h
    · exact absurd h (by simp)
    · rename_i hc
      obtain rfl : queue ++ confirmedTasks subs nid = q' := Except.ok.inj h
      have hc' : pkConflict queue (confirmedTasks subs nid) = false := by
        simpa using hc
      simp only [pkConflict, Bool.or_eq_false_iff,
        decide_eq_false_iff_not, not_not] at hc'
      obtain ⟨hdisj, hnd⟩ := hc'
      refine hq.append hnd ?_
      intro a ha hb
      exact hdisj ⟨a, hb, ha⟩
  · intro hc
    simp [enqueue_delivery_tasks, hc]

/-! ## Concurrent requests racing on one idempotency key

Modelled from the spec: concurrent publish requests interleave at database
round trips only; the shared `PgState` is the serialization point.  `tryP` is
the atomic insert-or-detect-conflict of `try_processing`;
`commitReservation` is the winner's commit (which completes the record and
releases its row lock); `abortReservation` is a rollback or crash of the
winner, which releases the reservation so a later request can win. -/

inductive SysEvent where
  | tryP (uid : UserId) (key : String)
  | commitReservation (uid : UserId) (key : String) (resp : HttpResp)
  | abortReservation (uid : UserId) (key : String)
deriving DecidableEq, Repr

def sysStep (st : PgState) (e : SysEvent) : PgState :=
  match e with
  | SysEvent.tryP uid key => (try_processing st uid key).1
  | SysEvent.commitReservation uid key resp =>
      if st.reservations.contains (uid, key) then
        ⟨⟨st.committed.idempotency ++ [⟨uid, key, resp⟩],
            st.committed.newsletter_issues, st.committed.issue_delivery_queue,
            st.committed.subscriptions⟩,
          st.reservations.erase (uid, key), st.nextId⟩
      else st
  | SysEvent.abortReservation uid key =>
      { st with reservations := st.reservations.erase (uid, key) }

def runEvents (st : PgState) (evs : List SysEvent) : PgState :=
  evs.foldl sysStep st

/-- Reservation-table invariant: no (user, key) is reserved twice, and no
reserved (user, key) already has a completed record. -/
def ResInv (st : PgState) : Prop :=
  st.reservations.Nodup ∧
  ∀ p ∈ st.reservations, lookupIdem st.committed.idempotency p.1 p.2 = none

lemma sysStep_inv (st : PgState) (e : SysEvent) (h : ResInv st) :
    ResInv (sysStep st e) := by
  obtain ⟨hnd, hres⟩ := h
  cases e with
  | tryP uid key =>
      simp only [sysStep, try_processing]
      cases hl : lookupIdem st.committed.idempotency uid key with
      | some row => exact ⟨hnd, hres⟩
      | none =>
          by_cases hc : st.reservations.contains (uid, key)
          · simp only [hc, if_true]
            exact ⟨hnd, hres⟩
          · simp only [hc, Bool.false_eq_true, if_false]
            have hnotmem : (uid, key) ∉ st.reservations := by
              intro hmem
              exact absurd (List.elem_iff.mpr hmem) (by simpa using hc)
            constructor
            · refine hnd.append (List.nodup_singleton _) ?_
              intro a ha hb
              simp only [List.mem_singleton] at hb
              subst hb
              exact hnotmem ha
            · intro p hp
              rcases List.mem_append.mp hp with hp | hp
              · exact hres p hp
              · simp only [List.mem_singleton] at hp
                subst hp
                exact hl
  | commitReservation uid key resp =>
      by_cases hc : st.reservations.contains (uid, key)
      · simp only [sysStep, hc, if_true]
        refine ⟨hnd.erase _, ?_⟩
        intro p hp
        have hpmem : p ∈ st.reservations := List.mem_of_mem_erase hp
        have hpne : p ≠ (uid, key) := ((hnd.mem_erase_iff).mp hp).1
        have hl := hres p hpmem
        have hone : List.find?
            (fun r : IdempotencyRow => r.user_id == p.1 && r.idempotency_key == p.2)
            [⟨uid, key, resp⟩] = none := by
          simp only [List.find?_singleton]
          have : ¬ (uid = p.1 ∧ key = p.2) := by
            intro ⟨ha, hb⟩
            exact hpne (by cases p; simp_all)
          simp only [Bool.and_eq_true, beq_iff_eq]
          split
          · rename_i hcond
            exact absurd hcond this
          · rfl
        simp only [lookupIdem, List.find?_append] at hl ⊢
        rw [show List.find?
            (fun r => r.user_id == p.1 && r.idempotency_key == p.2)
            st.committed.idempotency = none from hl, hone]
        rfl
      · simp only [sysStep, hc, Bool.false_eq_true, if_false]
        exact ⟨hnd, hres⟩
  | abortReservation uid key =>
      refine ⟨hnd.erase _, ?_⟩
      intro p hp
      exact hres p (List.mem_of_mem_erase hp)

lemma runEvents_inv (st : PgState) (evs : List SysEvent) (h : ResInv st) :
    ResInv (runEvents st evs) := by
  induction evs generalizing st with
  | nil => exact h
  | cons e es ih => exact ih _ (sysStep_inv st e h)

/-- **C4.** Along any interleaving of requests, the reservation invariant is
maintained and `try_processing` admits exactly one winner per
(user_id, idempotency_key): while a started-but-not-completed reservation
exists, any request trying the same key is told to wait (never treated as
"no record exists", never a second `StartProcessing`); once the winner has
committed, requests receive the saved response; and a request only receives
`StartProcessing` when neither a reservation nor a completed record
exists. -/
theorem try_processing_single_winner (st0 : PgState) (evs : List SysEvent)
    (h0 : ResInv st0) :
    ResInv (runEvents st0 evs) ∧
    (∀ uid key,
      (runEvents st0 evs).reservations.contains (uid, key) = true →
      (try_processing (runEvents st0 evs) uid key).2 =
        NextAction.waitForWinner) ∧
    (∀ uid key row,
      lookupIdem (runEvents st0 evs).committed.idempotency uid key =
        some row →
      (try_processing (runEvents st0 evs) uid key).2 =
        NextAction.returnSavedResponse row.response) ∧
    (∀ uid key,
      (try_processing (runEvents st0 evs) uid key).2 =
        NextAction.startProcessing →
      (runEvents st0 evs).reservations.contains (uid, key) = false ∧
      lookupIdem (runEvents st0 evs).committed.idempotency uid key =
        none) := by
  have hinv := runEvents_inv st0 evs h0
  refine ⟨hinv, ?_, ?_, ?_⟩
  · intro uid key hc
    have hmem : (uid, key) ∈ (runEvents st0 evs).reservations :=
      List.elem_iff.mp (by simpa using hc)
    have hl := hinv.2 _ hmem
    simp [try_processing, hl, hmem]
  · intro uid key row hrow
    simp [try_processing, hrow]
  · intro uid key hstart
    cases hx : lookupIdem (runEvents st0 evs).committed.idempotency uid key with
    | some r =>
        rw [try_processing.eq_def] at hstart
        simp only [hx] at hstart
        exact absurd hstart (by simp)
    | none =>
        by_cases hc : (runEvents st0 evs).reservations.contains (uid, key)
        · rw [try_processing.eq_def] at hstart
          simp only [hx, hc, if_true] at hstart
          exact absurd hstart (by simp)
        · exact ⟨by simpa using hc, rfl⟩

/-! ## Concrete witness fixtures -/

def dbW : Db := ⟨[], [], [], [⟨1, "a@x.com", "Al", "confirmed"⟩]⟩

def pgW : PgState := ⟨dbW, [], 5⟩

def pgW2 : PgState :=
  ⟨⟨[], [], [], [⟨1, "b@x.com", "Bo", "pending_confirmation"⟩]⟩, [], 5⟩

def pgW0 : PgState := ⟨⟨[], [], [], []⟩, [], 0⟩

def formW : FormData := ⟨"T", "<p>hi</p>", "hi", "k1"⟩

def formBadW : FormData := ⟨"T", "<p>hi</p>", "hi", ""⟩

def subW : SubDb := ⟨[], [], 0⟩

def outW : SubscribeOutcome :=
  ⟨⟨[⟨0, "a@x.com", "Al", "pending_confirmation"⟩],
      [⟨(SubscriptionToken.generate (fun _ => 0)).value, 0⟩], 1⟩,
    200, SubscriptionToken.generate (fun _ => 0)⟩

theorem publish_transaction_atomic_witness :
    (FailAt.enqueue ≠ FailAt.noFail →
      (publish_newsletter pgW 7 formW FailAt.enqueue).state = pgW) ∧
    (publish_newsletter pgW 7 formW FailAt.noFail).state.committed =
      ⟨pgW.committed.idempotency ++
          [⟨7, "k1", see_other "/admin/newsletters"⟩],
        pgW.committed.newsletter_issues ++
          [⟨pgW.nextId, formW.title, formW.text, formW.html⟩],
        pgW.committed.issue_delivery_queue ++
          confirmedTasks pgW.committed.subscriptions pgW.nextId,
        pgW.committed.subscriptions⟩ :=
  publish_transaction_atomic pgW 7 formW FailAt.enqueue "k1" (by decide)
    (by decide) (by decide) (by decide) (by decide)

theorem publish_idempotent_replay_witness :
    (publish_newsletter (publish_newsletter pgW 7 formW FailAt.noFail).state
        7 formW FailAt.noFail).ops = [DbOp.tryProcessingOp] ∧
    (publish_newsletter pgW 7 formW
        FailAt.noFail).state.committed.newsletter_issues.length =
      pgW.committed.newsletter_issues.length + 1 := by
  have h := publish_idempotent_replay pgW 7 formW "k1" (by decide) (by decide)
    (by decide) (by decide) (by decide)
  exact ⟨by rw [h.1], h.2.1⟩

theorem enqueue_no_duplicate_pairs_witness :
    ([⟨3, "a@x.com"⟩] : List DeliveryTask).Nodup :=
  (enqueue_no_duplicate_pairs [] [⟨1, "a@x.com", "Al", "confirmed"⟩] 3
      (by decide)).1
    [⟨3, "a@x.com"⟩] (by decide)

theorem try_processing_single_winner_witness :
    (try_processing (runEvents pgW0 [SysEvent.tryP 7 "k1"]) 7 "k1").2 =
      NextAction.waitForWinner :=
  (try_processing_single_winner pgW0 [SysEvent.tryP 7 "k1"]
      (by simp [ResInv, pgW0])).2.1 7 "k1" (by decide)

theorem publish_stages_confirmed_tasks_witness :
    (publish_newsletter pgW 7 formW
        FailAt.noFail).state.committed.issue_delivery_queue =
      pgW.committed.issue_delivery_queue ++
        confirmedTasks pgW.committed.subscriptions pgW.nextId ∧
    ((⟨pgW.nextId, "a@x.com"⟩ : DeliveryTask) ∈
        confirmedTasks pgW.committed.subscriptions pgW.nextId ↔
      ∃ s ∈ pgW.committed.subscriptions,
        s.status = "confirmed" ∧ s.email = "a@x.com") := by
  have h := publish_stages_confirmed_tasks pgW 7 formW "k1" (by decide)
    (by decide) (by decide) (by decide) (by decide)
  exact ⟨h.1, h.2.1 "a@x.com"⟩

theorem publish_invalid_key_fails_fast_witness :
    publish_newsletter pgW 7 formBadW FailAt.noFail =
      ⟨pgW, Except.error e400, []⟩ ∧ e400.status = 400 :=
  publish_invalid_key_fails_fast pgW 7 formBadW FailAt.noFail
    (Or.inl (by decide))

theorem publish_see_other_and_identical_replay_witness :
    (publish_newsletter pgW 7 formW FailAt.noFail).response =
      Except.ok (see_other "/admin/newsletters") ∧
    (publish_newsletter (publish_newsletter pgW 7 formW FailAt.noFail).state
        7 formW FailAt.noFail).response =
      (publish_newsletter pgW 7 formW FailAt.noFail).response := by
  have h := publish_see_other_and_identical_replay pgW 7 formW "k1"
    (by decide) (by decide) (by decide) (by decide) (by decide)
  exact ⟨h.1, h.2.2.2⟩

theorem publish_zero_confirmed_commits_witness :
    (publish_newsletter pgW2 7 formW FailAt.noFail).response =
      Except.ok (see_other "/admin/newsletters") ∧
    (publish_newsletter pgW2 7 formW
        FailAt.noFail).state.committed.issue_delivery_queue =
      pgW2.committed.issue_delivery_queue := by
  have h := publish_zero_confirmed_commits pgW2 7 formW "k1" (by decide)
    (by decide) (by decide) (by decide)
  exact ⟨h.1, h.2.1⟩

theorem subscribe_idempotent_per_email_witness :
    subscribe outW.db "a@x.com" "Al" (fun _ => 1) =
      Except.ok ⟨outW.db, 200, outW.confirmationToken⟩ ∧
    outW.status = 200 :=
  subscribe_idempotent_per_email subW "a@x.com" "Al" (fun _ => 0) (fun _ => 1)
    outW (by decide)
